import Mathlib

/-!
Shallow embedding of the registration state machine and capacity engine of
the hckriotWorkshops backend (src/models.py and src/routes.py), together
with theorems settling the specification claims about it.

Modelling conventions:
- Time instants are integers counted in seconds; a workshop interval is
  [sessionDateTime, sessionDateTime + durationMin * 60).
- The database is a list of Workshop rows and a list of Registration rows
  in insertion (rowid) order; the status column is kept as its stored
  integer, exactly as in models.py, and the Python-level hybrid getter is
  the separate function statusOfInt.
- Registration.Status is a hybrid_property with no class-level expression
  (models.py), so query criteria built from it are evaluated by Python on
  the class: a filter_by(Status=...) keyword criterion compares the
  class-level getter value (the REGISTERED member, the mapping default)
  with the given member and is therefore a constant — vacuously true for
  REGISTERED, so such filters match every row regardless of status — and
  Status.in_([...]) raises AttributeError while the query is being built,
  making the route that uses it fail with a 500 on every call. The
  repository's own test suite records this breakage
  (src/tests/test_scenarios.py line 564: the waitlist test fails because
  the filter_by result comes out incorrect). The instance-level getter,
  modelled by statusOfInt, still works and is used by the pre-checks of
  register_to_workshop.
- ORDER BY RegisteredAt DESC is modelled by a stable descending sort; ties
  keep row order, matching SQLite row order for the queries in the source.
- Each operation returns its result value and the resulting database
  state; update_workshop additionally returns the list of states committed
  by db.session.commit(), in commit order, since the demotion helper
  commits separately from the final commit of the route.
-/

namespace HckriotWorkshops

/-- Possible statuses for a workshop registration (models.py RegistrationStatus). -/
inductive RegistrationStatus where
  | REGISTERED
  | WAITLISTED
  | CANCELLED
deriving DecidableEq, Repr

/-- Integer ID stored in the database for each status (models.py RegistrationStatus.status_id). -/
def RegistrationStatus.status_id : RegistrationStatus → Int
  | .REGISTERED => 1
  | .WAITLISTED => 2
  | .CANCELLED => 3

/-- Python-level hybrid getter for Registration.Status (models.py):
status_mapping.get(self._status, RegistrationStatus.REGISTERED), i.e. the
stored integer 1, 2, 3 maps to the corresponding enum member and every
other integer defaults to REGISTERED. -/
def statusOfInt (n : Int) : RegistrationStatus :=
  if n = 1 then .REGISTERED
  else if n = 2 then .WAITLISTED
  else if n = 3 then .CANCELLED
  else .REGISTERED

/-- Workshop row (models.py Workshop). sessionDateTime is in seconds. -/
structure Workshop where
  workshopId : Nat
  title : String
  description : String
  sessionDateTime : Int
  durationMin : Int
  maxCapacity : Int
deriving DecidableEq, Repr

/-- Registration row (models.py Registration); status holds the stored
integer column, exactly as the _status column does. -/
structure Registration where
  registrationId : Nat
  workshopId : Nat
  userId : Nat
  registeredAt : Int
  status : Int
deriving DecidableEq, Repr

/-- Database state: the two tables the core logic touches, plus the
autoincrement counters for their primary keys. -/
structure DbState where
  workshops : List Workshop
  registrations : List Registration
  nextWorkshopId : Nat
  nextRegistrationId : Nat
deriving DecidableEq, Repr

/-- Workshop.query.get(w_id): primary-key lookup. -/
def workshopById (st : DbState) (wId : Nat) : Option Workshop :=
  st.workshops.find? fun w => w.workshopId == wId

/-- Helper _get_registered_count (routes.py): filter_by(WorkshopId=w_id,
Status=RegistrationStatus.REGISTERED).count(). The WorkshopId criterion is
a real column comparison; the Status keyword criterion is evaluated
against the class-level hybrid value (REGISTERED, the mapping default for
the instrumented attribute) and is identically true, so the query counts
every Registration row of the workshop regardless of its stored status. -/
def getRegisteredCount (st : DbState) (wId : Nat) : Nat :=
  st.registrations.countP fun r => r.workshopId == wId

/-- Number of rows whose stored status integer is REGISTERED (1) for the
workshop: the quantity the specification calls registeredCount(W). The
code's _get_registered_count does not compute it (see getRegisteredCount);
it is defined here only so that the claims' statements about the true
REGISTERED count can be written down and compared with the code. -/
def registeredRowsCount (st : DbState) (wId : Nat) : Nat :=
  st.registrations.countP fun r => r.workshopId == wId && r.status == 1

/-- ALLOWED_OVERLAP = timedelta(minutes=1) (routes.py), in seconds. -/
def ALLOWED_OVERLAP : Int := 60

/-- End instant of a workshop: SessionDateTime + timedelta(minutes=DurationMin). -/
def workshopEnd (w : Workshop) : Int :=
  w.sessionDateTime + w.durationMin * 60

/-- Overlap length of two workshop intervals as computed in
_check_for_registration_overlap: earliest_end - latest_start. -/
def overlapDuration (a b : Workshop) : Int :=
  min (workshopEnd a) (workshopEnd b) - max a.sessionDateTime b.sessionDateTime

/-- Loop body of _check_for_registration_overlap: walk the user's other
registrations in query order and return the workshop of the first one
whose overlap with the target exceeds ALLOWED_OVERLAP. Registrations
whose workshop row is absent (impossible under the foreign key
constraint) are skipped. -/
def findOverlapConflict (st : DbState) (target : Workshop) :
    List Registration → Option Workshop
  | [] => none
  | r :: rest =>
    match workshopById st r.workshopId with
    | none => findOverlapConflict st target rest
    | some ws =>
      if overlapDuration target ws > ALLOWED_OVERLAP then some ws
      else findOverlapConflict st target rest

/-- Helper _check_for_registration_overlap (routes.py): the query filters
on Registration.UserId, Registration.Status == RegistrationStatus.REGISTERED
and Registration.WorkshopId != the target. The status criterion is
evaluated on the class, where the hybrid getter already returns the
REGISTERED member, so it is the constant True and every status passes:
the query keeps all rows of this user whose workshop is not the target
itself. The loop then looks for an overlap beyond the tolerance. -/
def checkForRegistrationOverlap (st : DbState) (userId : Nat) (target : Workshop) :
    Option Workshop :=
  findOverlapConflict st target
    (st.registrations.filter fun r =>
      r.userId == userId && r.workshopId != target.workshopId)

/-- Replace the first element satisfying p by its image under f, leaving
the rest of the list unchanged: the effect of mutating the single ORM
object returned by Query.first(). -/
def updateFirst (p : α → Bool) (f : α → α) : List α → List α
  | [] => []
  | x :: xs => if p x then f x :: xs else x :: updateFirst p f xs

/-- Outcome of POST /workshops/id/register (register_to_workshop). -/
inductive RegisterResult where
  | notFound
  | alreadySignedUp (currentStatus : RegistrationStatus)
  | alreadyOnWaitlist (currentStatus : RegistrationStatus)
  | conflict (conflictingWorkshopId : Nat)
  | success (newStatus : RegistrationStatus)
deriving DecidableEq, Repr

/-- True exactly on the conflict outcome. -/
def RegisterResult.isConflict : RegisterResult → Bool
  | .conflict _ => true
  | _ => false

/-- Tail of register_to_workshop after the pre-checks: the scheduling
conflict check, the fresh capacity decision, and the write (update of the
existing row, or insert of a new row). now is the value of
datetime.now(timezone.utc) at the write. -/
def registerProceed (st : DbState) (userId : Nat) (w : Workshop)
    (hasExisting : Bool) (now : Int) : RegisterResult × DbState :=
  match checkForRegistrationOverlap st userId w with
  | some cw => (.conflict cw.workshopId, st)
  | none =>
    let registeredCount := getRegisteredCount st w.workshopId
    let newStatus : RegistrationStatus :=
      if (registeredCount : Int) ≥ w.maxCapacity then .WAITLISTED else .REGISTERED
    if hasExisting then
      let st' := { st with
        registrations := updateFirst
          (fun r => r.userId == userId && r.workshopId == w.workshopId)
          (fun r => { r with status := newStatus.status_id, registeredAt := now })
          st.registrations }
      (.success newStatus, st')
    else
      let newReg : Registration :=
        { registrationId := st.nextRegistrationId
          workshopId := w.workshopId
          userId := userId
          registeredAt := now
          status := newStatus.status_id }
      (.success newStatus,
        { st with
          registrations := st.registrations ++ [newReg]
          nextRegistrationId := st.nextRegistrationId + 1 })

/-- Route register_to_workshop (routes.py): look up the workshop, load any
existing registration of this user for it (any status), run the two
pre-checks (already registered via the Python-level status getter; already
waitlisted while the workshop is still full — fullness measured by the
all-rows count of getRegisteredCount), then proceed to the conflict
check and the capacity decision. -/
def registerToWorkshop (st : DbState) (userId wId : Nat) (now : Int) :
    RegisterResult × DbState :=
  match workshopById st wId with
  | none => (.notFound, st)
  | some w =>
    match st.registrations.find? fun r => r.userId == userId && r.workshopId == wId with
    | some ex =>
      if statusOfInt ex.status = .REGISTERED then
        (.alreadySignedUp (statusOfInt ex.status), st)
      else if statusOfInt ex.status = .WAITLISTED ∧
          (getRegisteredCount st wId : Int) ≥ w.maxCapacity then
        (.alreadyOnWaitlist (statusOfInt ex.status), st)
      else
        registerProceed st userId w true now
    | none => registerProceed st userId w false now

/-- Fold a sequence of register calls (userId, workshopId, now) over a state. -/
def runRegisterCalls (st : DbState) : List (Nat × Nat × Int) → DbState
  | [] => st
  | (u, w, t) :: rest => runRegisterCalls (registerToWorkshop st u w t).2 rest

/-- Outcome of DELETE /workshops/id/register (unregister_to_workshop).
The notFound and cancelled outcomes are the ones the handler body is
written to produce; the route never reaches them (see
unregisterToWorkshop). -/
inductive UnregisterResult where
  | serverError
  | notFound
  | cancelled (previousStatus : RegistrationStatus) (cancelledAt : Int)
deriving DecidableEq, Repr

/-- Route unregister_to_workshop (routes.py): its query filters with
Registration.Status.in_((RegistrationStatus.REGISTERED,
RegistrationStatus.WAITLISTED)). Registration.Status accessed on the
class is the plain REGISTERED enum member (the hybrid has no expression),
and an enum member has no in_ method, so building the query raises
AttributeError before anything is read or written; Flask turns the
uncaught exception into a 500 Internal Server Error response. Every call
therefore fails with a server error and leaves the state unchanged: no
row is ever found, cancelled, or timestamped by this route. -/
def unregisterToWorkshop (st : DbState) (userId wId : Nat) :
    UnregisterResult × DbState :=
  (.serverError, st)

/-- Ordering used by ORDER BY RegisteredAt DESC: a row comes no later than
another when its RegisteredAt is at least as large. -/
def regDescOrder (a b : Registration) : Prop :=
  b.registeredAt ≤ a.registeredAt

instance : DecidableRel regDescOrder :=
  fun a b => inferInstanceAs (Decidable (b.registeredAt ≤ a.registeredAt))

instance : IsTotal Registration regDescOrder :=
  ⟨fun a b => le_total b.registeredAt a.registeredAt⟩

instance : IsTrans Registration regDescOrder :=
  ⟨fun _ _ _ hab hbc => le_trans hbc hab⟩

/-- Rows selected for demotion by _remove_participants_from_workshop: its
filter_by names WorkshopId (a real column) and
Status=RegistrationStatus.REGISTERED, whose criterion is the constant
True on the expression-less hybrid, so the rows of the workshop of every
status qualify; they are ordered by RegisteredAt descending (stable in
row order) and limited to numParticipants. -/
def demotedRows (st : DbState) (wId : Nat) (numParticipants : Nat) : List Registration :=
  ((st.registrations.filter fun r => r.workshopId == wId).insertionSort
    regDescOrder).take numParticipants

/-- Helper _remove_participants_from_workshop (routes.py): query the rows
of the workshop (the status filter is vacuous, see demotedRows) ordered
by RegisteredAt descending, take the first numParticipants of them, set
their status to CANCELLED, commit, and return the user ids of the
cancelled registrations. Rows are identified by their primary key
registrationId. -/
def removeParticipantsFromWorkshop (st : DbState) (wId : Nat)
    (numParticipants : Nat) : List Nat × DbState :=
  let cancelledRegs := demotedRows st wId numParticipants
  let cancelledIds := cancelledRegs.map (·.registrationId)
  let st' := { st with
    registrations := st.registrations.map fun r =>
      if cancelledIds.contains r.registrationId then { r with status := 3 } else r }
  (cancelledRegs.map (·.userId), st')

/-- JSON values of the kinds the workshop routes inspect. (Request bodies
are parsed by the web layer; only integers, strings and null are relevant
to the validations modelled here.) -/
inductive JVal where
  | jint (n : Int)
  | jstr (s : String)
  | jnull
deriving DecidableEq, Repr

/-- Python truthiness of a JSON value. -/
def JVal.truthy : JVal → Bool
  | .jint n => n != 0
  | .jstr s => s != ""
  | .jnull => false

/-- True exactly on string values (isinstance(v, str)). -/
def JVal.isStr : JVal → Bool
  | .jstr _ => true
  | _ => false

/-- Body of a PATCH /workshops/id request: the three updatable fields,
each either absent or some JSON value. -/
structure UpdateData where
  title : Option JVal
  description : Option JVal
  capacity : Option JVal
deriving DecidableEq, Repr

/-- Outcome of PATCH /workshops/id (update_workshop). -/
inductive UpdateResult where
  | notFound
  | badRequest
  | internalError
  | updated (updatedFields : List String)
deriving DecidableEq, Repr

/-- Apply a field update to the workshop row with the given id. -/
def setWorkshopFields (st : DbState) (wId : Nat) (f : Workshop → Workshop) : DbState :=
  { st with
    workshops := st.workshops.map fun w => if w.workshopId == wId then f w else w }

/-- Guard expression of update_workshop reacting to the demotion helper:
the route fails with 500 Internal Server Error exactly when the returned
list of cancelled user ids is falsy, i.e. empty. -/
def removalFailedCheck (canceledUserIds : List Nat) : Bool :=
  canceledUserIds.isEmpty

/-- Title part of update_workshop: when a title is supplied it must be a
string that is non-empty after stripping; on success the stripped title
is written to the (session-pending) workshop row. -/
def titleStep (st : DbState) (wId : Nat) : Option JVal →
    UpdateResult ⊕ (DbState × List String)
  | none => .inr (st, [])
  | some (.jstr s) =>
    if s.trim = "" then .inl .badRequest
    else .inr (setWorkshopFields st wId fun w => { w with title := s.trim }, ["title"])
  | some _ => .inl .badRequest

/-- Description part of update_workshop: when a description is supplied
it must be a string; it is written verbatim. -/
def descriptionStep (st : DbState) (wId : Nat) (fields : List String) : Option JVal →
    UpdateResult ⊕ (DbState × List String)
  | none => .inr (st, fields)
  | some (.jstr s) =>
    .inr (setWorkshopFields st wId fun w => { w with description := s },
      fields ++ ["description"])
  | some _ => .inl .badRequest

/-- Capacity branch of update_workshop given the already validated new
capacity: read what the code calls the registered count (the all-rows
count of getRegisteredCount); when the new capacity is below it, demote
the difference via the helper (which commits on its own,
persisting any pending title or description change too) and fail Internal
when the helper returned no ids; finally write the new capacity. Returns
either the full error outcome or the updated state plus the states
committed so far. The notification hooks are no-ops in the source. -/
def updateCapacityBranch (st : DbState) (wId : Nat) (newCapacity : Int) :
    (UpdateResult × DbState × List DbState) ⊕ (DbState × List DbState) :=
  let registeredCount := getRegisteredCount st wId
  if newCapacity < (registeredCount : Int) then
    let diff := ((registeredCount : Int) - newCapacity).toNat
    let rem := removeParticipantsFromWorkshop st wId diff
    if removalFailedCheck rem.1 then .inl (.internalError, rem.2, [rem.2])
    else .inr (setWorkshopFields rem.2 wId fun w => { w with maxCapacity := newCapacity }, [rem.2])
  else
    .inr (setWorkshopFields st wId fun w => { w with maxCapacity := newCapacity }, [])

/-- Route update_workshop (routes.py, PATCH /workshops/id). The
permission check is an external collaborator and not modelled; a request
body with no JSON data is modelled as one with all three fields absent.
Fields are validated and applied in source order (title, description,
capacity); any validation failure returns 400 with nothing committed (the
session is rolled back), except that a state committed by the demotion
helper persists even when the route then fails. The third component lists
the states committed by db.session.commit(), in order: the helper's
commit during a capacity shrink, then the route's final commit. -/
def updateWorkshop (st : DbState) (wId : Nat) (data : UpdateData) :
    UpdateResult × DbState × List DbState :=
  match workshopById st wId with
  | none => (.notFound, st, [])
  | some _ =>
    if data.title.isNone && data.description.isNone && data.capacity.isNone then
      (.badRequest, st, [])
    else
      match titleStep st wId data.title with
      | .inl e => (e, st, [])
      | .inr (st1, fields1) =>
        match descriptionStep st1 wId fields1 data.description with
        | .inl e => (e, st, [])
        | .inr (st2, fields2) =>
          match data.capacity with
          | none =>
            if fields2.isEmpty then (.badRequest, st, [])
            else (.updated fields2, st2, [st2])
          | some (.jint n) =>
            if n < 0 then (.badRequest, st, [])
            else
              match updateCapacityBranch st2 wId n with
              | .inl out => out
              | .inr (st3, commits) =>
                (.updated (fields2 ++ ["capacity"]), st3, commits ++ [st3])
          | some _ => (.badRequest, st, [])

/-- Body of a POST /workshops request. -/
structure CreateData where
  title : Option JVal
  description : Option JVal
  session_datetime : Option JVal
  duration_min : Option JVal
  capacity : Option JVal
deriving DecidableEq, Repr

/-- Outcome of POST /workshops (create_workshop). -/
inductive CreateResult where
  | badRequest
  | created (w : Workshop)
deriving DecidableEq, Repr

/-- Route create_workshop (routes.py, POST /workshops). The admin check is
an external collaborator and not modelled; parseIso stands for
datetime.fromisoformat, which only accepts strings and may fail. The
validations run in source order: required fields, title, description,
duration (positive integer), capacity (the check requires a strictly
positive integer although the message speaks of a non-negative one),
session_datetime parse. Only when all pass is the workshop row inserted
and committed. -/
def createWorkshop (st : DbState) (data : CreateData)
    (parseIso : String → Option Int) : CreateResult × DbState :=
  if data.title.isNone && data.description.isNone && data.session_datetime.isNone &&
      data.duration_min.isNone && data.capacity.isNone then
    (.badRequest, st)
  else if data.title.isNone || data.session_datetime.isNone ||
      data.duration_min.isNone || data.capacity.isNone then
    (.badRequest, st)
  else
    let description := data.description.getD (.jstr "")
    match data.title with
    | some (.jstr s) =>
      if s.trim = "" then (.badRequest, st)
      else if description.truthy && !description.isStr then (.badRequest, st)
      else
        match data.duration_min with
        | some (.jint d) =>
          if d ≤ 0 then (.badRequest, st)
          else
            match data.capacity with
            | some (.jint c) =>
              if c ≤ 0 then (.badRequest, st)
              else
                match data.session_datetime with
                | some (.jstr sd) =>
                  match parseIso sd with
                  | none => (.badRequest, st)
                  | some ts =>
                    let w : Workshop :=
                      { workshopId := st.nextWorkshopId
                        title := s.trim
                        description := match description with | .jstr ds => ds | _ => ""
                        sessionDateTime := ts
                        durationMin := d
                        maxCapacity := c }
                    (.created w,
                      { st with
                        workshops := st.workshops ++ [w]
                        nextWorkshopId := st.nextWorkshopId + 1 })
                | some _ => (.badRequest, st)
                | none => (.badRequest, st)
            | some _ => (.badRequest, st)
            | none => (.badRequest, st)
        | some _ => (.badRequest, st)
        | none => (.badRequest, st)
    | some _ => (.badRequest, st)
    | none => (.badRequest, st)

/-- Two registration rows are for the same (user, workshop) pair. -/
def samePair (a b : Registration) : Prop :=
  a.userId = b.userId ∧ a.workshopId = b.workshopId

instance : DecidableRel samePair :=
  fun a b => inferInstanceAs (Decidable (a.userId = b.userId ∧ a.workshopId = b.workshopId))

/-- The database uniqueness constraint on (UserId, WorkshopId)
(models.py, unique_user_workshop_registration): no two rows share a pair. -/
def uniquePairs (st : DbState) : Prop :=
  st.registrations.Pairwise fun a b => ¬ samePair a b

instance (st : DbState) : Decidable (uniquePairs st) :=
  inferInstanceAs (Decidable (st.registrations.Pairwise fun a b => ¬ samePair a b))

/-- The rows of this pair whose status is REGISTERED or WAITLISTED. -/
def activeRowsForPair (st : DbState) (userId wId : Nat) : List Registration :=
  st.registrations.filter fun r =>
    r.userId == userId && r.workshopId == wId && (r.status == 1 || r.status == 2)

/-! ### Concrete example data used by witnesses and counterexamples -/

/-- Example workshop of capacity 1, interval [0, 5400). -/
def exWorkshopCap1 : Workshop :=
  { workshopId := 1, title := "w1", description := "", sessionDateTime := 0,
    durationMin := 90, maxCapacity := 1 }

/-- Example state: the capacity-1 workshop and no registrations. -/
def exStateCap1 : DbState :=
  { workshops := [exWorkshopCap1], registrations := [],
    nextWorkshopId := 2, nextRegistrationId := 1 }

/-- Example workshop X, interval [0, 5400), capacity 2. -/
def exWorkshopX : Workshop :=
  { workshopId := 1, title := "X", description := "", sessionDateTime := 0,
    durationMin := 90, maxCapacity := 2 }

/-- Example workshop Y, interval [3600, 7200), capacity 1; it overlaps X by
1800 seconds, well beyond the one-minute tolerance. -/
def exWorkshopY : Workshop :=
  { workshopId := 2, title := "Y", description := "", sessionDateTime := 3600,
    durationMin := 60, maxCapacity := 1 }

/-- Example state: user 1 holds a single CANCELLED (stored status 3)
registration on workshop X and nothing else; Y is empty. -/
def exStateCancelledOnX : DbState :=
  { workshops := [exWorkshopX, exWorkshopY]
    registrations :=
      [{ registrationId := 1, workshopId := 1, userId := 1, registeredAt := 0, status := 3 }]
    nextWorkshopId := 3
    nextRegistrationId := 2 }

/-- Example state: user 1 REGISTERED on the capacity-2 workshop X, no
registration for workshop Y. -/
def exStateRegisteredOnX : DbState :=
  { workshops := [exWorkshopX, exWorkshopY]
    registrations :=
      [{ registrationId := 1, workshopId := 1, userId := 1, registeredAt := 0, status := 1 }]
    nextWorkshopId := 3
    nextRegistrationId := 2 }

/-- Example state with one REGISTERED row created at instant 100. -/
def exStateOneRegistered : DbState :=
  { workshops := [exWorkshopCap1]
    registrations :=
      [{ registrationId := 1, workshopId := 1, userId := 1, registeredAt := 100, status := 1 }]
    nextWorkshopId := 2
    nextRegistrationId := 2 }

/-- Example workshop of capacity 3. -/
def exWorkshopCap3 : Workshop :=
  { workshopId := 1, title := "w", description := "", sessionDateTime := 0,
    durationMin := 60, maxCapacity := 3 }

/-- Example state: three REGISTERED rows on the capacity-3 workshop; user
11 registered first (instant 10), user 13 second (instant 20), user 12
last (instant 30). -/
def exStateThreeRegistered : DbState :=
  { workshops := [exWorkshopCap3]
    registrations :=
      [{ registrationId := 1, workshopId := 1, userId := 11, registeredAt := 10, status := 1 },
       { registrationId := 2, workshopId := 1, userId := 12, registeredAt := 30, status := 1 },
       { registrationId := 3, workshopId := 1, userId := 13, registeredAt := 20, status := 1 }]
    nextWorkshopId := 2
    nextRegistrationId := 4 }

/-- Example state: the capacity-1 workshop holds a single CANCELLED
(stored status 3) row of user 9 and no REGISTERED or WAITLISTED row. -/
def exStateOneCancelled : DbState :=
  { workshops := [exWorkshopCap1]
    registrations :=
      [{ registrationId := 1, workshopId := 1, userId := 9, registeredAt := 0, status := 3 }]
    nextWorkshopId := 2
    nextRegistrationId := 2 }

/-- Example state: workshop 1 has capacity 2 and two rows — user 1
REGISTERED at instant 20 and user 2 WAITLISTED at instant 10. -/
def exStateRegAndWaitlisted : DbState :=
  { workshops := [exWorkshopX]
    registrations :=
      [{ registrationId := 1, workshopId := 1, userId := 1, registeredAt := 20, status := 1 },
       { registrationId := 2, workshopId := 1, userId := 2, registeredAt := 10, status := 2 }]
    nextWorkshopId := 2
    nextRegistrationId := 3 }

/-- Example state: the capacity-1 workshop with user 1 REGISTERED at
instant 10 and user 2 WAITLISTED at instant 20. -/
def exStateABFull : DbState :=
  { workshops := [exWorkshopCap1]
    registrations :=
      [{ registrationId := 1, workshopId := 1, userId := 1, registeredAt := 10, status := 1 },
       { registrationId := 2, workshopId := 1, userId := 2, registeredAt := 20, status := 2 }]
    nextWorkshopId := 2
    nextRegistrationId := 3 }

/-- Example state: the capacity-1 workshop with only user 2's WAITLISTED
row — no REGISTERED row at all. -/
def exStateOnlyWaitlisted : DbState :=
  { workshops := [exWorkshopCap1]
    registrations :=
      [{ registrationId := 2, workshopId := 1, userId := 2, registeredAt := 20, status := 2 }]
    nextWorkshopId := 2
    nextRegistrationId := 3 }

/-- Example state with one row whose stored status integer is 7, outside
the 1, 2, 3 mapping of the hybrid getter. -/
def exStateStatus7 : DbState :=
  { workshops := [exWorkshopCap3]
    registrations :=
      [{ registrationId := 1, workshopId := 1, userId := 1, registeredAt := 0, status := 7 }]
    nextWorkshopId := 2
    nextRegistrationId := 2 }

/-! ### Basic lemmas about the embedding -/

theorem workshopById_workshopId {st : DbState} {wId : Nat} {w : Workshop}
    (h : workshopById st wId = some w) : w.workshopId = wId := by
  unfold workshopById at h
  have := List.find?_some h
  simpa using this

theorem length_updateFirst (q : α → Bool) (f : α → α) (l : List α) :
    (updateFirst q f l).length = l.length := by
  induction l with
  | nil => rfl
  | cons x xs ih =>
    simp only [updateFirst]
    split <;> simp [ih]

theorem mem_updateFirst {q : α → Bool} {f : α → α} {l : List α} {b : α}
    (h : b ∈ updateFirst q f l) : b ∈ l ∨ ∃ a, a ∈ l ∧ b = f a := by
  induction l with
  | nil => simp [updateFirst] at h
  | cons x xs ih =>
    simp only [updateFirst] at h
    split at h
    · rcases List.mem_cons.1 h with h1 | h1
      · exact .inr ⟨x, List.mem_cons_self .., h1⟩
      · exact .inl (List.mem_cons_of_mem _ h1)
    · rcases List.mem_cons.1 h with h1 | h1
      · exact .inl (h1 ▸ List.mem_cons_self ..)
      · rcases ih h1 with h2 | ⟨a, ha, rfl⟩
        · exact .inl (List.mem_cons_of_mem _ h2)
        · exact .inr ⟨a, List.mem_cons_of_mem _ ha, rfl⟩

theorem countP_updateFirst_le_succ (p q : α → Bool) (f : α → α) (l : List α) :
    (updateFirst q f l).countP p ≤ l.countP p + 1 := by
  induction l with
  | nil => simp [updateFirst]
  | cons x xs ih =>
    simp only [updateFirst]
    split
    · simp only [List.countP_cons]
      cases hfx : p (f x) <;> cases hx : p x <;> simp <;> omega
    · simp only [List.countP_cons]
      cases hx : p x <;> simp <;> omega

theorem countP_updateFirst_of_false (p q : α → Bool) (f : α → α) (l : List α)
    (h : ∀ x, p (f x) = false) :
    (updateFirst q f l).countP p ≤ l.countP p := by
  induction l with
  | nil => simp [updateFirst]
  | cons x xs ih =>
    simp only [updateFirst]
    split
    · simp only [List.countP_cons, h x]
      cases hx : p x <;> simp <;> omega
    · simp only [List.countP_cons]
      cases hx : p x <;> simp <;> omega

theorem countP_updateFirst_of_preserve (p q : α → Bool) (f : α → α) (l : List α)
    (h : ∀ x, q x = true → p (f x) = p x) :
    (updateFirst q f l).countP p = l.countP p := by
  induction l with
  | nil => rfl
  | cons x xs ih =>
    simp only [updateFirst]
    split
    · simp only [List.countP_cons]
      rename_i hq
      rw [h x hq]
    · simp only [List.countP_cons, ih]

theorem find?_updateFirst (q : α → Bool) (f : α → α) (l : List α)
    (h : ∀ x, q (f x) = q x) :
    (updateFirst q f l).find? q = (l.find? q).map f := by
  induction l with
  | nil => rfl
  | cons x xs ih =>
    simp only [updateFirst]
    split
    · rename_i hq
      rw [List.find?_cons_of_pos _ (by rw [h x]; exact hq), List.find?_cons_of_pos _ hq]
      rfl
    · rename_i hq
      rw [List.find?_cons_of_neg _ (by simpa using hq), List.find?_cons_of_neg _ (by simpa using hq)]
      exact ih

theorem pairwise_updateFirst {R : α → α → Prop} {q : α → Bool} {f : α → α} {l : List α}
    (hl : ∀ a b, R a b → R a (f b)) (hr : ∀ a b, R a b → R (f a) b)
    (h : l.Pairwise R) : (updateFirst q f l).Pairwise R := by
  induction l with
  | nil => exact h
  | cons x xs ih =>
    rcases List.pairwise_cons.1 h with ⟨hx, hxs⟩
    simp only [updateFirst]
    split
    · exact List.pairwise_cons.2 ⟨fun b hb => hr x b (hx b hb), hxs⟩
    · refine List.pairwise_cons.2 ⟨?_, ih hxs⟩
      intro b hb
      rcases mem_updateFirst hb with h1 | ⟨a, ha, rfl⟩
      · exact hx b h1
      · exact hl x a (hx a ha)

/-- C6 (code evaluation at a failing input): user 1 holds a REGISTERED
registration for workshop 1 created at instant 100, exactly the situation
in which the claim promises a CANCELLED transition with a refreshed
timestamp; the unregister call instead fails with a server error (the
route raises AttributeError while building its Status.in_ query and
returns 500) and the stored row is completely untouched — it keeps
status REGISTERED and registeredAt = 100. Nothing is ever cancelled, no
previous status is returned, and no timestamp is refreshed, on this or
any other input. -/
theorem c6_unregister_server_error :
    unregisterToWorkshop exStateOneRegistered 1 1 = (.serverError, exStateOneRegistered) ∧
    (unregisterToWorkshop exStateOneRegistered 1 1).2.registrations =
      [{ registrationId := 1, workshopId := 1, userId := 1, registeredAt := 100, status := 1 }] := by
  constructor <;> rfl

theorem registerProceed_workshops (st : DbState) (u : Nat) (w : Workshop) (b : Bool)
    (now : Int) : (registerProceed st u w b now).2.workshops = st.workshops := by
  unfold registerProceed
  split
  · rfl
  · split <;> rfl

theorem registerToWorkshop_workshops (st : DbState) (u wId : Nat) (now : Int) :
    (registerToWorkshop st u wId now).2.workshops = st.workshops := by
  unfold registerToWorkshop
  split
  · rfl
  · split
    · split
      · rfl
      · split
        · rfl
        · exact registerProceed_workshops ..
    · exact registerProceed_workshops ..

theorem workshopById_registerToWorkshop (st : DbState) (u wId : Nat) (now : Int)
    (wId2 : Nat) :
    workshopById (registerToWorkshop st u wId now).2 wId2 = workshopById st wId2 := by
  unfold workshopById
  rw [registerToWorkshop_workshops]

theorem registeredRowsCount_le_getRegisteredCount (st : DbState) (wId : Nat) :
    registeredRowsCount st wId ≤ getRegisteredCount st wId :=
  List.countP_mono_left fun r _ h => by
    simp only [Bool.and_eq_true] at h
    exact h.1

theorem registeredRowsCount_registerProceed_le {st : DbState} {u : Nat} {w : Workshop}
    {b : Bool} {now : Int} {wId : Nat} {C : Int}
    (h1 : (registeredRowsCount st wId : Int) ≤ C)
    (h2 : w.workshopId = wId → w.maxCapacity ≤ C) :
    (registeredRowsCount (registerProceed st u w b now).2 wId : Int) ≤ C := by
  simp only [registerProceed]
  split
  · exact h1
  · by_cases hful : (getRegisteredCount st w.workshopId : Int) ≥ w.maxCapacity
    · -- decision is WAITLISTED: stored status 2 never counts
      rw [if_pos hful]
      split
      · -- update of the existing row to status 2
        have hle := countP_updateFirst_of_false
          (fun (r : Registration) => r.workshopId == wId && r.status == 1)
          (fun (r : Registration) => r.userId == u && r.workshopId == w.workshopId)
          (fun (r : Registration) =>
            { r with status := RegistrationStatus.WAITLISTED.status_id, registeredAt := now })
          st.registrations (by intro x; simp [RegistrationStatus.status_id])
        simp only [registeredRowsCount] at h1 hle ⊢
        omega
      · -- insert of a new row with status 2
        simp only [registeredRowsCount, List.countP_append, List.countP_cons, List.countP_nil,
          RegistrationStatus.status_id] at h1 ⊢
        norm_num
        omega
    · -- decision is REGISTERED: the all-rows count the code reads is below
      -- capacity, and the true REGISTERED count is at most that count
      rw [if_neg hful]
      by_cases hww : w.workshopId = wId
      · have hcap : w.maxCapacity ≤ C := h2 hww
        subst hww
        have hmono := registeredRowsCount_le_getRegisteredCount st w.workshopId
        split
        · -- update of the existing row to status 1
          have hle := countP_updateFirst_le_succ
            (fun (r : Registration) => r.workshopId == w.workshopId && r.status == 1)
            (fun (r : Registration) => r.userId == u && r.workshopId == w.workshopId)
            (fun (r : Registration) =>
              { r with status := RegistrationStatus.REGISTERED.status_id, registeredAt := now })
            st.registrations
          simp only [registeredRowsCount, getRegisteredCount] at h1 hful hle hmono ⊢
          omega
        · -- insert of a new row with status 1
          simp only [registeredRowsCount, getRegisteredCount, List.countP_append,
            List.countP_cons, List.countP_nil, RegistrationStatus.status_id] at h1 hful hmono ⊢
          norm_num
          omega
      · -- the write is for another workshop and cannot change this count
        split
        · have heq := countP_updateFirst_of_preserve
            (fun (r : Registration) => r.workshopId == wId && r.status == 1)
            (fun (r : Registration) => r.userId == u && r.workshopId == w.workshopId)
            (fun (r : Registration) =>
              { r with status := RegistrationStatus.REGISTERED.status_id, registeredAt := now })
            st.registrations (by
              intro x hx
              simp only [Bool.and_eq_true, beq_iff_eq] at hx
              have hf : (w.workshopId == wId) = false := by simp [hww]
              simp [hx.2, hf])
          simp only [registeredRowsCount] at h1 heq ⊢
          omega
        · simp only [registeredRowsCount, List.countP_append, List.countP_cons, List.countP_nil,
            RegistrationStatus.status_id] at h1 ⊢
          have : (w.workshopId == wId) = false := by simp [hww]
          simp only [this]
          norm_num
          omega

theorem registeredRowsCount_registerToWorkshop_le {st : DbState} {u wi : Nat} {now : Int}
    {wId : Nat} {C : Int}
    (h1 : (registeredRowsCount st wId : Int) ≤ C)
    (h2 : ∀ w2, workshopById st wi = some w2 → w2.workshopId = wId → w2.maxCapacity ≤ C) :
    (registeredRowsCount (registerToWorkshop st u wi now).2 wId : Int) ≤ C := by
  unfold registerToWorkshop
  split
  · exact h1
  · rename_i w2 hw2
    split
    · split
      · exact h1
      · split
        · exact h1
        · exact registeredRowsCount_registerProceed_le h1 (h2 w2 hw2)
    · exact registeredRowsCount_registerProceed_le h1 (h2 w2 hw2)

theorem registeredRowsCount_runRegisterCalls_le (calls : List (Nat × Nat × Int))
    {st : DbState} {wId : Nat} {w : Workshop}
    (hw : workshopById st wId = some w)
    (h1 : (registeredRowsCount st wId : Int) ≤ w.maxCapacity) :
    workshopById (runRegisterCalls st calls) wId = some w ∧
      (registeredRowsCount (runRegisterCalls st calls) wId : Int) ≤ w.maxCapacity := by
  induction calls generalizing st with
  | nil => exact ⟨hw, h1⟩
  | cons c rest ih =>
    rcases c with ⟨u, wi, t⟩
    simp only [runRegisterCalls]
    apply ih
    · rw [workshopById_registerToWorkshop]
      exact hw
    · apply registeredRowsCount_registerToWorkshop_le h1
      intro w2 hw2 hww
      have h3 := workshopById_workshopId hw2
      have hwi : wi = wId := by omega
      subst hwi
      have h4 := hw.symm.trans hw2
      injection h4 with h4
      subst h4
      exact le_refl _

theorem registerProceed_success {st : DbState} {u : Nat} {w : Workshop} {b : Bool}
    {now : Int} {s : RegistrationStatus}
    (h : (registerProceed st u w b now).1 = .success s) :
    (s = .REGISTERED → (getRegisteredCount st w.workshopId : Int) < w.maxCapacity) ∧
      (s = .WAITLISTED → (getRegisteredCount st w.workshopId : Int) ≥ w.maxCapacity) ∧
      (s = .REGISTERED ∨ s = .WAITLISTED) := by
  unfold registerProceed at h
  split at h
  · cases h
  · by_cases hful : (getRegisteredCount st w.workshopId : Int) ≥ w.maxCapacity
    · simp only [if_pos hful] at h
      have hs : s = .WAITLISTED := by
        cases b <;> simp_all
      subst hs
      exact ⟨fun hc => (nomatch hc), fun _ => hful, .inr rfl⟩
    · simp only [if_neg hful] at h
      have hs : s = .REGISTERED := by
        cases b <;> simp_all
      subst hs
      exact ⟨fun _ => not_le.1 hful, fun hc => (nomatch hc), .inl rfl⟩

theorem registerToWorkshop_success {st : DbState} {userId wId : Nat} {now : Int}
    {s : RegistrationStatus} {w : Workshop}
    (hw : workshopById st wId = some w)
    (h : (registerToWorkshop st userId wId now).1 = .success s) :
    (registerProceed st userId w true now).1 = .success s ∨
      (registerProceed st userId w false now).1 = .success s := by
  unfold registerToWorkshop at h
  rw [hw] at h
  dsimp only at h
  split at h
  · split at h
    · simp at h
    · split at h
      · simp at h
      · exact .inl h
  · exact .inr h

/-- C9: reading the Status of a Registration whose stored integer is
outside the 1, 2, 3 mapping yields REGISTERED (the getter defaults
unknown integers to REGISTERED rather than failing); such a row blocks
re-registration exactly as a REGISTERED one does (register returns
AlreadySignedUp and changes nothing); and it counts toward the registered
count the routes read — the count of _get_registered_count covers every
row of the workshop, this one included. -/
theorem c9_status_decoding :
    (∀ n : Int, n ≠ 1 → n ≠ 2 → n ≠ 3 → statusOfInt n = .REGISTERED) ∧
    (∀ (st : DbState) (userId wId : Nat) (now : Int) (w : Workshop) (ex : Registration),
      workshopById st wId = some w →
      st.registrations.find? (fun r => r.userId == userId && r.workshopId == wId) = some ex →
      statusOfInt ex.status = .REGISTERED →
      registerToWorkshop st userId wId now = (.alreadySignedUp .REGISTERED, st)) ∧
    (∀ (st : DbState) (wId : Nat) (r : Registration), r.workshopId = wId →
      getRegisteredCount { st with registrations := st.registrations ++ [r] } wId =
        getRegisteredCount st wId + 1) := by
  refine ⟨?_, ?_, ?_⟩
  · intro n h1 h2 h3
    simp [statusOfInt, h1, h2, h3]
  · intro st userId wId now w ex hw hex hst
    simp [registerToWorkshop, hw, hex, hst]
  · intro st wId r hr
    simp only [getRegisteredCount, List.countP_append]
    have : List.countP (fun x => x.workshopId == wId) [r] = 1 := by
      simp [hr]
    omega

/-- Witness for C9 at stored status 7: it decodes to REGISTERED, blocks
re-registration of user 1 on workshop 1, and appending a second such row
(stored status 9) increments the workshop's registered count by one. -/
theorem c9_status_decoding_witness :
    statusOfInt 7 = .REGISTERED ∧
    registerToWorkshop exStateStatus7 1 1 5 = (.alreadySignedUp .REGISTERED, exStateStatus7) ∧
    getRegisteredCount { exStateStatus7 with registrations := exStateStatus7.registrations ++
      [{ registrationId := 2, workshopId := 1, userId := 2, registeredAt := 0, status := 9 }] } 1 =
      getRegisteredCount exStateStatus7 1 + 1 :=
  ⟨c9_status_decoding.1 7 (by decide) (by decide) (by decide),
   c9_status_decoding.2.1 exStateStatus7 1 1 5 exWorkshopCap3
     { registrationId := 1, workshopId := 1, userId := 1, registeredAt := 0, status := 7 }
     rfl rfl rfl,
   c9_status_decoding.2.2 exStateStatus7 1
     { registrationId := 2, workshopId := 1, userId := 2, registeredAt := 0, status := 9 }
     rfl⟩

/-- C1 (counterexample): the capacity-1 workshop holds one CANCELLED row
and nothing else, so the number of REGISTERED registrations is 0,
strictly below the capacity 1; the claim's decision rule (REGISTERED when
the fresh registered count is strictly below capacity, WAITLISTED
otherwise) then promises a REGISTERED outcome for a fresh registrant, but
the call returns WAITLISTED: the code decides on the all-rows count (1,
including the CANCELLED row), not on the REGISTERED count. -/
theorem c1_capacity_invariant_counterexample :
    registeredRowsCount exStateOneCancelled 1 = 0 ∧
    exWorkshopCap1.maxCapacity = 1 ∧
    workshopById exStateOneCancelled 1 = some exWorkshopCap1 ∧
    (registerToWorkshop exStateOneCancelled 2 1 50).1 = .success .WAITLISTED := by
  refine ⟨rfl, rfl, rfl, by decide⟩

/-- C1 (amended): the invariant half of the claim holds — starting from
any state in which the number of REGISTERED rows of a workshop is at most
its capacity, every sequence of register calls keeps it at most the
capacity. The decision, however, reads the all-rows count of
_get_registered_count (its status filter is vacuous): a successful
REGISTERED outcome implies that the all-rows count, and hence also the
REGISTERED count below it, was strictly below capacity, and whenever the
all-rows count has reached capacity every successful outcome is
WAITLISTED — but a REGISTERED count below capacity alone does not
guarantee a REGISTERED outcome. -/
theorem c1_capacity_invariant :
    (∀ (st : DbState) (calls : List (Nat × Nat × Int)) (wId : Nat) (w : Workshop),
      workshopById st wId = some w →
      (registeredRowsCount st wId : Int) ≤ w.maxCapacity →
      (registeredRowsCount (runRegisterCalls st calls) wId : Int) ≤ w.maxCapacity) ∧
    (∀ (st : DbState) (userId wId : Nat) (now : Int) (w : Workshop),
      workshopById st wId = some w →
      ((registerToWorkshop st userId wId now).1 = .success .REGISTERED →
        (getRegisteredCount st wId : Int) < w.maxCapacity ∧
        (registeredRowsCount st wId : Int) < w.maxCapacity) ∧
      ((getRegisteredCount st wId : Int) ≥ w.maxCapacity →
        ∀ s, (registerToWorkshop st userId wId now).1 = .success s →
          s = .WAITLISTED)) := by
  constructor
  · intro st calls wId w hw h1
    exact (registeredRowsCount_runRegisterCalls_le calls hw h1).2
  · intro st userId wId now w hw
    have hwid := workshopById_workshopId hw
    constructor
    · intro hres
      have hlt : (getRegisteredCount st w.workshopId : Int) < w.maxCapacity := by
        rcases registerToWorkshop_success hw hres with h2 | h2
        · exact (registerProceed_success h2).1 rfl
        · exact (registerProceed_success h2).1 rfl
      rw [hwid] at hlt
      have hmono := registeredRowsCount_le_getRegisteredCount st wId
      exact ⟨hlt, by omega⟩
    · intro hful s hres
      have hok : (s = .REGISTERED →
          (getRegisteredCount st w.workshopId : Int) < w.maxCapacity) ∧
          (s = .REGISTERED ∨ s = .WAITLISTED) := by
        rcases registerToWorkshop_success hw hres with h2 | h2
        · exact ⟨(registerProceed_success h2).1, (registerProceed_success h2).2.2⟩
        · exact ⟨(registerProceed_success h2).1, (registerProceed_success h2).2.2⟩
      rcases hok.2 with hs | hs
      · exfalso
        have := hok.1 hs
        rw [hwid] at this
        omega
      · exact hs

/-- Witness for C1 (amended): on the concrete capacity-1 workshop, after
three register calls by three users the REGISTERED count is still at most
1; the first call's REGISTERED outcome certifies both counts were below
capacity; and on the full workshop every successful outcome is
WAITLISTED. -/
theorem c1_capacity_invariant_witness :
    (registeredRowsCount (runRegisterCalls exStateCap1 [(1, 1, 10), (2, 1, 20), (3, 1, 30)]) 1 : Int)
      ≤ exWorkshopCap1.maxCapacity ∧
    ((registerToWorkshop exStateCap1 1 1 10).1 = .success .REGISTERED →
      (getRegisteredCount exStateCap1 1 : Int) < exWorkshopCap1.maxCapacity ∧
      (registeredRowsCount exStateCap1 1 : Int) < exWorkshopCap1.maxCapacity) :=
  ⟨c1_capacity_invariant.1 exStateCap1 [(1, 1, 10), (2, 1, 20), (3, 1, 30)] 1 exWorkshopCap1
      rfl (by decide),
   (c1_capacity_invariant.2 exStateCap1 1 1 10 exWorkshopCap1 rfl).1⟩

/-! ### Lemmas for the uniqueness invariant -/

theorem pairwise_not_samePair_updateFirst {q : Registration → Bool}
    {f : Registration → Registration}
    (hf : ∀ r, (f r).userId = r.userId ∧ (f r).workshopId = r.workshopId)
    {l : List Registration} (h : l.Pairwise fun a b => ¬ samePair a b) :
    (updateFirst q f l).Pairwise fun a b => ¬ samePair a b :=
  pairwise_updateFirst
    (fun _ b hab hc => hab ⟨hc.1.trans (hf b).1, hc.2.trans (hf b).2⟩)
    (fun a _ hab hc => hab ⟨(hf a).1.symm.trans hc.1, (hf a).2.symm.trans hc.2⟩) h

theorem pairwise_not_samePair_map {g : Registration → Registration}
    (hg : ∀ r, (g r).userId = r.userId ∧ (g r).workshopId = r.workshopId)
    {l : List Registration} (h : l.Pairwise fun a b => ¬ samePair a b) :
    (l.map g).Pairwise fun a b => ¬ samePair a b :=
  h.map g fun a b hab hc =>
    hab ⟨((hg a).1.symm.trans hc.1).trans (hg b).1, ((hg a).2.symm.trans hc.2).trans (hg b).2⟩

theorem demoteMap_preserves_pair (ids : List Nat) (r : Registration) :
    ((fun r => if ids.contains r.registrationId then { r with status := 3 } else r) r).userId
        = r.userId ∧
      ((fun r => if ids.contains r.registrationId then { r with status := 3 } else r) r).workshopId
        = r.workshopId := by
  dsimp only
  split <;> exact ⟨rfl, rfl⟩

theorem registrations_removeParticipantsFromWorkshop (st : DbState) (wId : Nat) (n : Nat) :
    (removeParticipantsFromWorkshop st wId n).2.registrations =
      st.registrations.map fun r =>
        if ((demotedRows st wId n).map (fun x => x.registrationId)).contains r.registrationId
        then { r with status := 3 } else r := rfl

theorem registerProceed_registrations (st : DbState) (u : Nat) (w : Workshop) (b : Bool)
    (now : Int) :
    (registerProceed st u w b now).2.registrations = st.registrations ∨
    (b = true ∧ ∃ f : Registration → Registration,
      (∀ r, (f r).userId = r.userId ∧ (f r).workshopId = r.workshopId) ∧
      (registerProceed st u w b now).2.registrations =
        updateFirst (fun r => r.userId == u && r.workshopId == w.workshopId) f
          st.registrations) ∨
    (b = false ∧ ∃ x : Registration, x.userId = u ∧ x.workshopId = w.workshopId ∧
      (registerProceed st u w b now).2.registrations = st.registrations ++ [x]) := by
  unfold registerProceed
  split
  · exact .inl rfl
  · cases b
    · refine .inr (.inr ⟨rfl, ?_⟩)
      refine ⟨{ registrationId := st.nextRegistrationId,
                workshopId := w.workshopId,
                userId := u,
                registeredAt := now,
                status := (if (getRegisteredCount st w.workshopId : Int) ≥ w.maxCapacity then
                    RegistrationStatus.WAITLISTED
                  else RegistrationStatus.REGISTERED).status_id },
        rfl, rfl, rfl⟩
    · refine .inr (.inl ⟨rfl, ?_⟩)
      refine ⟨fun r =>
        { r with status := (if (getRegisteredCount st w.workshopId : Int) ≥ w.maxCapacity then
              RegistrationStatus.WAITLISTED
            else RegistrationStatus.REGISTERED).status_id,
                 registeredAt := now },
        fun r => ⟨rfl, rfl⟩, rfl⟩

theorem uniquePairs_registerToWorkshop (st : DbState) (u wId : Nat) (now : Int)
    (h : uniquePairs st) : uniquePairs (registerToWorkshop st u wId now).2 := by
  unfold registerToWorkshop
  split
  · exact h
  · rename_i w hw
    split
    · split
      · exact h
      · split
        · exact h
        · rcases registerProceed_registrations st u w true now with hr | ⟨_, f, hf, hr⟩ | ⟨hb, _⟩
          · unfold uniquePairs at h ⊢
            rw [hr]
            exact h
          · unfold uniquePairs at h ⊢
            rw [hr]
            exact pairwise_not_samePair_updateFirst hf h
          · cases hb
    · rename_i hnone
      rcases registerProceed_registrations st u w false now with hr | ⟨hb, _⟩ | ⟨_, x, hxu, hxw, hr⟩
      · unfold uniquePairs at h ⊢
        rw [hr]
        exact h
      · cases hb
      · unfold uniquePairs at h ⊢
        rw [hr]
        refine List.pairwise_append.2 ⟨h, List.pairwise_singleton .., ?_⟩
        intro a ha y hy
        have hy2 : y = x := List.mem_singleton.1 hy
        subst hy2
        have hna := List.find?_eq_none.1 hnone a ha
        intro hc
        apply hna
        have hww := workshopById_workshopId hw
        simp only [Bool.and_eq_true, beq_iff_eq]
        exact ⟨hc.1.trans hxu, hc.2.trans (hxw.trans hww)⟩

theorem uniquePairs_unregisterToWorkshop (st : DbState) (u wId : Nat)
    (h : uniquePairs st) : uniquePairs (unregisterToWorkshop st u wId).2 := h

theorem titleStep_inr {st : DbState} {wId : Nat} {t : Option JVal} {st1 : DbState}
    {fields : List String} (h : titleStep st wId t = .inr (st1, fields)) :
    st1.registrations = st.registrations := by
  unfold titleStep at h
  split at h
  · cases h; rfl
  · split at h
    · cases h
    · cases h; rfl
  · cases h

theorem descriptionStep_inr {st : DbState} {wId : Nat} {fields0 : List String}
    {d : Option JVal} {st1 : DbState} {fields : List String}
    (h : descriptionStep st wId fields0 d = .inr (st1, fields)) :
    st1.registrations = st.registrations := by
  unfold descriptionStep at h
  split at h
  · cases h; rfl
  · cases h; rfl
  · cases h

theorem updateCapacityBranch_inl {st : DbState} {wId : Nat} {n : Int}
    {out : UpdateResult × DbState × List DbState}
    (h : updateCapacityBranch st wId n = .inl out) :
    out.2.1.registrations =
      (removeParticipantsFromWorkshop st wId
        (((getRegisteredCount st wId : Int) - n).toNat)).2.registrations := by
  simp only [updateCapacityBranch] at h
  split at h
  · split at h
    · cases h; rfl
    · cases h
  · cases h

theorem updateCapacityBranch_inr {st : DbState} {wId : Nat} {n : Int}
    {st3 : DbState} {commits : List DbState}
    (h : updateCapacityBranch st wId n = .inr (st3, commits)) :
    st3.registrations = st.registrations ∨
      st3.registrations =
        (removeParticipantsFromWorkshop st wId
          (((getRegisteredCount st wId : Int) - n).toNat)).2.registrations := by
  simp only [updateCapacityBranch] at h
  split at h
  · split at h
    · cases h
    · cases h; exact .inr rfl
  · cases h; exact .inl rfl

theorem uniquePairs_of_registrations_eq {st st2 : DbState}
    (h : st2.registrations = st.registrations) (hu : uniquePairs st) : uniquePairs st2 := by
  unfold uniquePairs at hu ⊢
  rw [h]
  exact hu

theorem uniquePairs_removeParticipantsFromWorkshop (st : DbState) (wId : Nat) (n : Nat)
    (h : uniquePairs st) : uniquePairs (removeParticipantsFromWorkshop st wId n).2 := by
  unfold uniquePairs at h ⊢
  rw [registrations_removeParticipantsFromWorkshop]
  exact pairwise_not_samePair_map
    (demoteMap_preserves_pair ((demotedRows st wId n).map fun x => x.registrationId)) h

theorem uniquePairs_updateWorkshop (st : DbState) (wId : Nat) (data : UpdateData)
    (h : uniquePairs st) : uniquePairs (updateWorkshop st wId data).2.1 := by
  unfold updateWorkshop
  split
  · exact h
  · split
    · exact h
    · split
      · exact h
      · rename_i st1 fields1 hts
        have h1 : uniquePairs st1 :=
          uniquePairs_of_registrations_eq (titleStep_inr hts) h
        split
        · exact h
        · rename_i st2 fields2 hds
          have h2 : uniquePairs st2 :=
            uniquePairs_of_registrations_eq (descriptionStep_inr hds) h1
          split
          · split
            · exact h
            · exact h2
          · split
            · exact h
            · split
              · rename_i out hout
                exact uniquePairs_of_registrations_eq (updateCapacityBranch_inl hout)
                  (uniquePairs_removeParticipantsFromWorkshop st2 wId _ h2)
              · rename_i st3 commits hbr
                rcases updateCapacityBranch_inr hbr with h3 | h3
                · exact uniquePairs_of_registrations_eq h3 h2
                · exact uniquePairs_of_registrations_eq h3
                    (uniquePairs_removeParticipantsFromWorkshop st2 wId _ h2)
          · exact h

theorem activeRowsForPair_length_le (st : DbState) (u wId : Nat)
    (h : uniquePairs st) : (activeRowsForPair st u wId).length ≤ 1 := by
  unfold activeRowsForPair
  have hp : (st.registrations.filter fun r =>
      r.userId == u && r.workshopId == wId && (r.status == 1 || r.status == 2)).Pairwise
        fun a b => ¬ samePair a b :=
    h.sublist (List.filter_sublist _)
  rcases hL : st.registrations.filter fun r =>
      r.userId == u && r.workshopId == wId && (r.status == 1 || r.status == 2) with
    _ | ⟨a, _ | ⟨b, t⟩⟩
  · simp [hL]
  · simp [hL]
  · exfalso
    rw [hL] at hp
    have hnab : ¬ samePair a b := (List.pairwise_cons.1 hp).1 b (List.mem_cons_self ..)
    have ha : a ∈ st.registrations.filter fun r =>
        r.userId == u && r.workshopId == wId && (r.status == 1 || r.status == 2) := by
      rw [hL]; exact List.mem_cons_self ..
    have hb : b ∈ st.registrations.filter fun r =>
        r.userId == u && r.workshopId == wId && (r.status == 1 || r.status == 2) := by
      rw [hL]; simp
    have hpa := (List.mem_filter.1 ha).2
    have hpb := (List.mem_filter.1 hb).2
    simp only [Bool.and_eq_true, beq_iff_eq] at hpa hpb
    exact hnab ⟨hpa.1.1.trans hpb.1.1.symm, hpa.1.2.trans hpb.1.2.symm⟩

theorem registerToWorkshop_length_of_existing (st : DbState) (u wId : Nat) (now : Int)
    (r : Registration) (hr : r ∈ st.registrations) (hu : r.userId = u)
    (hwr : r.workshopId = wId) :
    (registerToWorkshop st u wId now).2.registrations.length = st.registrations.length := by
  have hsome : (st.registrations.find? fun x => x.userId == u && x.workshopId == wId).isSome := by
    rw [List.find?_isSome]
    exact ⟨r, hr, by simp [hu, hwr]⟩
  unfold registerToWorkshop
  split
  · rfl
  · rename_i w hw
    split
    · split
      · rfl
      · split
        · rfl
        · rcases registerProceed_registrations st u w true now with hr2 | ⟨_, f, hf, hr2⟩ | ⟨hb, _⟩
          · rw [hr2]
          · rw [hr2, length_updateFirst]
          · cases hb
    · rename_i hnone
      rw [hnone] at hsome
      simp at hsome

/-- C2: assuming the database uniqueness constraint on (user, workshop) —
at most one registration row per pair, of any status — each operation
(register, unregister, workshop update including capacity changes)
preserves it; under it, at most one REGISTERED-or-WAITLISTED row exists
per pair; and register never inserts a second row when any row for the
pair already exists (it updates the existing row instead). -/
theorem c2_no_double_active_registration :
    (∀ (st : DbState) (u wId : Nat) (now : Int), uniquePairs st →
      uniquePairs (registerToWorkshop st u wId now).2) ∧
    (∀ (st : DbState) (u wId : Nat), uniquePairs st →
      uniquePairs (unregisterToWorkshop st u wId).2) ∧
    (∀ (st : DbState) (wId : Nat) (data : UpdateData), uniquePairs st →
      uniquePairs (updateWorkshop st wId data).2.1) ∧
    (∀ (st : DbState) (u wId : Nat), uniquePairs st →
      (activeRowsForPair st u wId).length ≤ 1) ∧
    (∀ (st : DbState) (u wId : Nat) (now : Int) (r : Registration),
      r ∈ st.registrations → r.userId = u → r.workshopId = wId →
      (registerToWorkshop st u wId now).2.registrations.length =
        st.registrations.length) :=
  ⟨fun st u wId now h => uniquePairs_registerToWorkshop st u wId now h,
   fun st u wId h => uniquePairs_unregisterToWorkshop st u wId h,
   fun st wId data h => uniquePairs_updateWorkshop st wId data h,
   fun st u wId h => activeRowsForPair_length_le st u wId h,
   fun st u wId now r hr hu hw =>
     registerToWorkshop_length_of_existing st u wId now r hr hu hw⟩

/-- Witness for C2 at the concrete three-row state: a register call by
user 11 (who already holds a row for workshop 1) preserves uniqueness and
does not grow the table, and the pair (11, 1) has at most one active row. -/
theorem c2_no_double_active_registration_witness :
    uniquePairs (registerToWorkshop exStateThreeRegistered 11 1 50).2 ∧
    (activeRowsForPair exStateThreeRegistered 11 1).length ≤ 1 ∧
    (registerToWorkshop exStateThreeRegistered 11 1 50).2.registrations.length =
      exStateThreeRegistered.registrations.length :=
  ⟨c2_no_double_active_registration.1 exStateThreeRegistered 11 1 50 (by decide),
   c2_no_double_active_registration.2.2.2.1 exStateThreeRegistered 11 1 (by decide),
   c2_no_double_active_registration.2.2.2.2 exStateThreeRegistered 11 1 50
     { registrationId := 1, workshopId := 1, userId := 11, registeredAt := 10, status := 1 }
     (by decide) rfl rfl⟩

/-! ### Lemmas for the conflict checker -/

theorem findOverlapConflict_eq_none {st : DbState} {target : Workshop}
    {l : List Registration} :
    findOverlapConflict st target l = none ↔
      ∀ r ∈ l, ∀ ws, workshopById st r.workshopId = some ws →
        overlapDuration target ws ≤ ALLOWED_OVERLAP := by
  induction l with
  | nil => simp [findOverlapConflict]
  | cons r rest ih =>
    simp only [findOverlapConflict]
    split
    · rename_i hnone
      rw [ih]
      constructor
      · intro h x hx ws hws
        rcases List.mem_cons.1 hx with rfl | hx
        · rw [hnone] at hws
          cases hws
        · exact h x hx ws hws
      · intro h x hx ws hws
        exact h x (List.mem_cons_of_mem _ hx) ws hws
    · rename_i ws hws
      split
      · rename_i hover
        constructor
        · intro h
          cases h
        · intro h
          have := h r (List.mem_cons_self ..) ws hws
          omega
      · rename_i hover
        rw [ih]
        constructor
        · intro h x hx ws2 hws2
          rcases List.mem_cons.1 hx with rfl | hx
          · rw [hws] at hws2
            cases hws2
            omega
          · exact h x hx ws2 hws2
        · intro h x hx ws2 hws2
          exact h x (List.mem_cons_of_mem _ hx) ws2 hws2

theorem findOverlapConflict_some {st : DbState} {target : Workshop} {l : List Registration}
    {cw : Workshop} (h : findOverlapConflict st target l = some cw) :
    ∃ r ∈ l, workshopById st r.workshopId = some cw ∧
      overlapDuration target cw > ALLOWED_OVERLAP := by
  induction l with
  | nil => cases h
  | cons r rest ih =>
    simp only [findOverlapConflict] at h
    split at h
    · rcases ih h with ⟨x, hx, h2⟩
      exact ⟨x, List.mem_cons_of_mem _ hx, h2⟩
    · rename_i ws hws
      split at h
      · rename_i hover
        cases h
        exact ⟨r, List.mem_cons_self .., hws, hover⟩
      · rcases ih h with ⟨x, hx, h2⟩
        exact ⟨x, List.mem_cons_of_mem _ hx, h2⟩

theorem checkForRegistrationOverlap_eq_none {st : DbState} {userId : Nat}
    {target : Workshop} :
    checkForRegistrationOverlap st userId target = none ↔
      ∀ r ∈ st.registrations, r.userId = userId →
        r.workshopId ≠ target.workshopId →
        ∀ ws, workshopById st r.workshopId = some ws →
          overlapDuration target ws ≤ ALLOWED_OVERLAP := by
  unfold checkForRegistrationOverlap
  rw [findOverlapConflict_eq_none]
  constructor
  · intro h r hr h1 h3 ws hws
    exact h r (List.mem_filter.2 ⟨hr, by simp [h1, h3]⟩) ws hws
  · intro h r hr ws hws
    have hm := List.mem_filter.1 hr
    have hm2 := hm.2
    simp only [Bool.and_eq_true, beq_iff_eq, bne_iff_ne] at hm2
    exact h r hm.1 hm2.1 hm2.2 ws hws

theorem checkForRegistrationOverlap_ne_none {st : DbState} {userId : Nat}
    {target : Workshop} :
    checkForRegistrationOverlap st userId target ≠ none ↔
      ∃ r ∈ st.registrations, r.userId = userId ∧
        r.workshopId ≠ target.workshopId ∧
        ∃ ws, workshopById st r.workshopId = some ws ∧
          overlapDuration target ws > ALLOWED_OVERLAP := by
  constructor
  · intro h
    rcases Option.ne_none_iff_exists'.1 h with ⟨cw, hcw⟩
    unfold checkForRegistrationOverlap at hcw
    rcases findOverlapConflict_some hcw with ⟨r, hr, hws, hover⟩
    have hm := List.mem_filter.1 hr
    have hm2 := hm.2
    simp only [Bool.and_eq_true, beq_iff_eq, bne_iff_ne] at hm2
    exact ⟨r, hm.1, hm2.1, hm2.2, cw, hws, hover⟩
  · rintro ⟨r, hr, h1, h3, ws, hws, hover⟩ hchk
    have := checkForRegistrationOverlap_eq_none.1 hchk r hr h1 h3 ws hws
    omega

theorem registerProceed_ne_alreadyOnWaitlist {st : DbState} {u : Nat} {w : Workshop}
    {b : Bool} {now : Int} {s : RegistrationStatus} :
    (registerProceed st u w b now).1 ≠ .alreadyOnWaitlist s := by
  unfold registerProceed
  split
  · intro h
    cases h
  · cases b <;> (intro h; simp at h)

theorem registerProceed_isConflict {st : DbState} {u : Nat} {w : Workshop} {b : Bool}
    {now : Int} :
    ((registerProceed st u w b now).1).isConflict = true ↔
      checkForRegistrationOverlap st u w ≠ none := by
  unfold registerProceed
  split
  · rename_i cw hcw
    simp [RegisterResult.isConflict, hcw]
  · rename_i hnone
    cases b <;> simp [RegisterResult.isConflict, hnone]

theorem registerProceed_conflict_eq {st : DbState} {u : Nat} {w : Workshop} {b : Bool}
    {now : Int} {cid : Nat}
    (h : (registerProceed st u w b now).1 = .conflict cid) :
    ∃ cw, checkForRegistrationOverlap st u w = some cw ∧ cw.workshopId = cid := by
  unfold registerProceed at h
  split at h
  · rename_i cw hcw
    refine ⟨cw, hcw, ?_⟩
    have h2 : RegisterResult.conflict cw.workshopId = .conflict cid := h
    injection h2
  · cases b <;> simp at h

theorem registerToWorkshop_eq_proceed_some {st : DbState} {userId wId : Nat}
    {w : Workshop} {ex : Registration} (now : Int)
    (hw : workshopById st wId = some w)
    (hex : st.registrations.find? (fun r => r.userId == userId && r.workshopId == wId) =
      some ex)
    (h1 : statusOfInt ex.status ≠ .REGISTERED)
    (h2 : statusOfInt ex.status = .WAITLISTED →
      (getRegisteredCount st wId : Int) < w.maxCapacity) :
    registerToWorkshop st userId wId now = registerProceed st userId w true now := by
  unfold registerToWorkshop
  rw [hw]
  dsimp only
  rw [hex]
  dsimp only
  rw [if_neg h1, if_neg ?hc]
  case hc =>
    intro hc
    exact absurd (h2 hc.1) (not_lt.2 hc.2)

theorem registerToWorkshop_eq_proceed_none {st : DbState} {userId wId : Nat}
    {w : Workshop} (now : Int)
    (hw : workshopById st wId = some w)
    (hnone : st.registrations.find? (fun r => r.userId == userId && r.workshopId == wId) =
      none) :
    registerToWorkshop st userId wId now = registerProceed st userId w false now := by
  unfold registerToWorkshop
  rw [hw]
  dsimp only
  rw [hnone]

/-- C3 (counterexample): user 1 holds a single CANCELLED registration on
workshop X, which overlaps workshop Y by 1800 seconds, and no REGISTERED
registration anywhere; the claim says WAITLISTED and CANCELLED
registrations never block, so registering for Y must not fail with
Conflict — yet the call returns Conflict naming X: the status criterion
of the conflict query is vacuously true, so the CANCELLED row is scanned
and blocks. -/
theorem c3_conflict_rule_counterexample :
    (registerToWorkshop exStateCancelledOnX 1 2 30).1 = .conflict 1 ∧
    (∀ r ∈ exStateCancelledOnX.registrations,
      r.status ≠ 1 ∧ statusOfInt r.status ≠ .REGISTERED) := by
  refine ⟨by decide, by decide⟩

/-- C3 (amended): provided the pre-checks pass (the user has no existing
registration for the candidate that reads as REGISTERED, and is not
WAITLISTED while the candidate is full by the code's all-rows count),
register fails with Conflict if and only if some workshop other than the
candidate, on which the user holds a registration row of any status —
WAITLISTED and CANCELLED rows block exactly as REGISTERED ones do, since
the status criterion of the conflict query is vacuously true — overlaps
the candidate by strictly more than ALLOWED_OVERLAP (one minute); the
conflicting workshop named in the failure is such a workshop. Overlap of
at most one minute never blocks, by the if-and-only-if. -/
theorem c3_conflict_rule_amended :
    ∀ (st : DbState) (userId wId : Nat) (now : Int) (w : Workshop),
      workshopById st wId = some w →
      (∀ ex, st.registrations.find?
          (fun r => r.userId == userId && r.workshopId == wId) = some ex →
        statusOfInt ex.status ≠ .REGISTERED ∧
        (statusOfInt ex.status = .WAITLISTED →
          (getRegisteredCount st wId : Int) < w.maxCapacity)) →
      ((((registerToWorkshop st userId wId now).1).isConflict = true) ↔
        ∃ r ∈ st.registrations, r.userId = userId ∧ r.workshopId ≠ wId ∧
          ∃ ws, workshopById st r.workshopId = some ws ∧
            overlapDuration w ws > ALLOWED_OVERLAP) ∧
      (∀ cid, (registerToWorkshop st userId wId now).1 = .conflict cid →
        ∃ r ∈ st.registrations, r.userId = userId ∧ r.workshopId ≠ wId ∧
          ∃ ws, workshopById st r.workshopId = some ws ∧ ws.workshopId = cid ∧
            overlapDuration w ws > ALLOWED_OVERLAP) := by
  intro st userId wId now w hw hpre
  have hwid := workshopById_workshopId hw
  have heq : registerToWorkshop st userId wId now = registerProceed st userId w
      ((st.registrations.find? fun r => r.userId == userId && r.workshopId == wId).isSome)
      now := by
    rcases hfind : st.registrations.find? fun r => r.userId == userId && r.workshopId == wId
      with _ | ex
    · rw [hfind]
      exact registerToWorkshop_eq_proceed_none now hw hfind
    · rw [hfind]
      rcases hpre ex hfind with ⟨h1, h2⟩
      exact registerToWorkshop_eq_proceed_some now hw hfind h1 h2
  constructor
  · rw [heq, registerProceed_isConflict, checkForRegistrationOverlap_ne_none]
    constructor
    · rintro ⟨r, hr, h1, h3, ws, hws, hover⟩
      rw [hwid] at h3
      exact ⟨r, hr, h1, h3, ws, hws, hover⟩
    · rintro ⟨r, hr, h1, h3, ws, hws, hover⟩
      rw [← hwid] at h3
      exact ⟨r, hr, h1, h3, ws, hws, hover⟩
  · intro cid hcid
    rw [heq] at hcid
    rcases registerProceed_conflict_eq hcid with ⟨cw, hcw, hcid2⟩
    have hne : checkForRegistrationOverlap st userId w ≠ none := by
      rw [hcw]
      intro hc
      cases hc
    rcases Option.ne_none_iff_exists'.1 hne with ⟨cw2, hcw2⟩
    rw [hcw] at hcw2
    injection hcw2 with hcw2
    subst hcw2
    unfold checkForRegistrationOverlap at hcw
    rcases findOverlapConflict_some hcw with ⟨r, hr, hws, hover⟩
    have hm := List.mem_filter.1 hr
    have hm2 := hm.2
    simp only [Bool.and_eq_true, beq_iff_eq, bne_iff_ne] at hm2
    rw [hwid] at hm2
    exact ⟨r, hm.1, hm2.1, hm2.2, cw, hws, hcid2, hover⟩

/-- Witness for C3 (amended) at a concrete state: user 1 is REGISTERED on
workshop X and attempts the overlapping workshop Y with no existing
registration for Y; the amended rule yields a Conflict outcome. -/
theorem c3_conflict_rule_amended_witness :
    ((registerToWorkshop exStateRegisteredOnX 1 2 99).1).isConflict = true :=
  ((c3_conflict_rule_amended exStateRegisteredOnX 1 2 99 exWorkshopY (by decide)
      (fun ex hex => by cases hex)).1).2
    ⟨{ registrationId := 1, workshopId := 1, userId := 1, registeredAt := 0, status := 1 },
      by decide, rfl, by decide, exWorkshopX, by decide, by decide⟩

/-- C5 (code evaluation at the failing input): the capacity-1 workshop
has user 1 REGISTERED and user 2 WAITLISTED — the exact setup of the
claim's promotion scenario. User 1's unregister call fails with a server
error and changes nothing (the route raises AttributeError building its
query), so no seat is ever freed; user 2's re-attempted register returns
AlreadyOnWaitlist. Even with no REGISTERED row at all (only user 2's own
WAITLISTED row on the capacity-1 workshop, a free seat in the claim's
sense), the register call still returns AlreadyOnWaitlist, because the
fullness test counts every row of the workshop including the caller's
own waitlisted one; so the AlreadyWaitlisted-iff-full half of the claim
fails too, and the promotion scenario is unreachable. -/
theorem c5_lazy_waitlist_promotion :
    unregisterToWorkshop exStateABFull 1 1 = (.serverError, exStateABFull) ∧
    (registerToWorkshop exStateABFull 2 1 40).1 = .alreadyOnWaitlist .WAITLISTED ∧
    registeredRowsCount exStateOnlyWaitlisted 1 = 0 ∧
    exWorkshopCap1.maxCapacity = 1 ∧
    (registerToWorkshop exStateOnlyWaitlisted 2 1 40).1 = .alreadyOnWaitlist .WAITLISTED := by
  refine ⟨rfl, by decide, rfl, rfl, by decide⟩

/-! ### Lemmas for the capacity-shrink demotion -/

theorem getRegisteredCount_eq_length_filter (st : DbState) (wId : Nat) :
    getRegisteredCount st wId =
      (st.registrations.filter fun r => r.workshopId == wId).length := by
  simp [getRegisteredCount, List.countP_eq_length_filter]

theorem length_demotedRows (st : DbState) (wId : Nat) (n : Nat) :
    (demotedRows st wId n).length = min n (getRegisteredCount st wId) := by
  unfold demotedRows
  rw [List.length_take, List.length_insertionSort, ← getRegisteredCount_eq_length_filter]

theorem removeParticipantsFromWorkshop_fst (st : DbState) (wId : Nat) (n : Nat) :
    (removeParticipantsFromWorkshop st wId n).1 =
      (demotedRows st wId n).map fun r => r.userId := rfl

theorem length_removeParticipantsFromWorkshop_fst (st : DbState) (wId : Nat) (n : Nat)
    (h : n ≤ getRegisteredCount st wId) :
    (removeParticipantsFromWorkshop st wId n).1.length = n := by
  rw [removeParticipantsFromWorkshop_fst, List.length_map, length_demotedRows]
  omega

theorem mem_demotedRows {st : DbState} {wId : Nat} {n : Nat} {r : Registration}
    (h : r ∈ demotedRows st wId n) :
    r ∈ st.registrations ∧ r.workshopId = wId := by
  unfold demotedRows at h
  have h2 := List.mem_of_mem_take h
  rw [List.mem_insertionSort] at h2
  have h3 := List.mem_filter.1 h2
  have h4 := h3.2
  simp only [beq_iff_eq] at h4
  exact ⟨h3.1, h4⟩

theorem demotedRows_append_drop (st : DbState) (wId : Nat) (n : Nat) :
    demotedRows st wId n ++
      ((st.registrations.filter fun r => r.workshopId == wId).insertionSort
        regDescOrder).drop n =
      (st.registrations.filter fun r => r.workshopId == wId).insertionSort
        regDescOrder :=
  List.take_append_drop ..

theorem demotedRows_latest (st : DbState) (wId : Nat) (n : Nat) :
    ∀ a ∈ demotedRows st wId n,
      ∀ b ∈ ((st.registrations.filter fun r =>
          r.workshopId == wId).insertionSort regDescOrder).drop n,
        b.registeredAt ≤ a.registeredAt := by
  have hs : List.Sorted regDescOrder
      ((st.registrations.filter fun r => r.workshopId == wId).insertionSort
        regDescOrder) := List.sorted_insertionSort _ _
  rw [← demotedRows_append_drop st wId n] at hs
  intro a ha b hb
  exact (List.pairwise_append.1 hs).2.2 a ha b hb

theorem nat_contains_iff {l : List Nat} {x : Nat} : l.contains x = true ↔ x ∈ l :=
  List.elem_iff

theorem getRegisteredCount_removeParticipantsFromWorkshop (st : DbState) (wId : Nat)
    (n : Nat) :
    getRegisteredCount (removeParticipantsFromWorkshop st wId n).2 wId =
      getRegisteredCount st wId := by
  show ((removeParticipantsFromWorkshop st wId n).2.registrations.countP fun r =>
    r.workshopId == wId) = getRegisteredCount st wId
  rw [registrations_removeParticipantsFromWorkshop, List.countP_map]
  have hfun : ((fun r : Registration => r.workshopId == wId) ∘ fun r =>
      if ((demotedRows st wId n).map fun x => x.registrationId).contains r.registrationId
      then { r with status := 3 } else r) = fun r : Registration => r.workshopId == wId := by
    funext r
    simp only [Function.comp]
    split <;> rfl
  rw [hfun]
  rfl

theorem demoteMap_registrationId (ids : List Nat) (r : Registration) :
    ((fun r => if ids.contains r.registrationId then { r with status := 3 } else r)
      r).registrationId = r.registrationId := by
  dsimp only
  split <;> rfl

theorem removeParticipants_mem_of_other_workshop {st : DbState} {wId : Nat} {n : Nat}
    {r : Registration}
    (hids : (st.registrations.map fun r => r.registrationId).Nodup)
    (hr : r ∈ st.registrations)
    (hnp : r.workshopId ≠ wId) :
    r ∈ (removeParticipantsFromWorkshop st wId n).2.registrations := by
  rw [registrations_removeParticipantsFromWorkshop]
  have hc : ((demotedRows st wId n).map fun x => x.registrationId).contains
      r.registrationId = false := by
    cases hcc : ((demotedRows st wId n).map fun x => x.registrationId).contains
        r.registrationId
    · rfl
    · exfalso
      have hin := nat_contains_iff.1 hcc
      rcases List.mem_map.1 hin with ⟨d, hd, hdid⟩
      have hdm := mem_demotedRows hd
      have hdr : d = r := List.inj_on_of_nodup_map hids hdm.1 hr hdid
      exact hnp (hdr ▸ hdm.2)
  refine List.mem_map.2 ⟨r, hr, ?_⟩
  rw [if_neg (by rw [hc]; exact Bool.false_ne_true)]

theorem removeParticipants_demoted_status {st : DbState} {wId : Nat} {n : Nat}
    {r : Registration}
    (hr : r ∈ (removeParticipantsFromWorkshop st wId n).2.registrations)
    (hid : r.registrationId ∈ (demotedRows st wId n).map fun x => x.registrationId) :
    r.status = 3 := by
  rw [registrations_removeParticipantsFromWorkshop] at hr
  rcases List.mem_map.1 hr with ⟨x, hx, hgx⟩
  cases hc : ((demotedRows st wId n).map fun y => y.registrationId).contains
      x.registrationId
  · exfalso
    rw [if_neg (by rw [hc]; exact Bool.false_ne_true)] at hgx
    subst hgx
    have := nat_contains_iff.2 hid
    rw [hc] at this
    cases this
  · rw [if_pos hc] at hgx
    exact (congrArg Registration.status hgx).symm

theorem removeParticipants_mem_of_not_demoted {st : DbState} {wId : Nat} {n : Nat}
    {r : Registration} (hr : r ∈ st.registrations)
    (hid : r.registrationId ∉ (demotedRows st wId n).map fun x => x.registrationId) :
    r ∈ (removeParticipantsFromWorkshop st wId n).2.registrations := by
  rw [registrations_removeParticipantsFromWorkshop]
  have hc : ((demotedRows st wId n).map fun x => x.registrationId).contains
      r.registrationId = false := by
    cases hcc : ((demotedRows st wId n).map fun x => x.registrationId).contains
        r.registrationId
    · rfl
    · exact absurd (nat_contains_iff.1 hcc) hid
  refine List.mem_map.2 ⟨r, hr, ?_⟩
  rw [if_neg (by rw [hc]; exact Bool.false_ne_true)]

theorem removeParticipants_lifo {st : DbState} {wId : Nat} {n : Nat}
    (hids : (st.registrations.map fun r => r.registrationId).Nodup)
    (r1 r2 : Registration)
    (h1 : r1 ∈ st.registrations) (h2 : r2 ∈ st.registrations)
    (hw2 : r2.workshopId = wId)
    (hd1 : r1.registrationId ∈ (demotedRows st wId n).map fun x => x.registrationId)
    (hd2 : r2.registrationId ∉ (demotedRows st wId n).map fun x => x.registrationId) :
    r2.registeredAt ≤ r1.registeredAt := by
  have hr1dem : r1 ∈ demotedRows st wId n := by
    rcases List.mem_map.1 hd1 with ⟨d, hd, hdid⟩
    have hdx : d = r1 := List.inj_on_of_nodup_map hids (mem_demotedRows hd).1 h1 hdid
    exact hdx ▸ hd
  have hr2sorted : r2 ∈ (st.registrations.filter fun r =>
      r.workshopId == wId).insertionSort regDescOrder := by
    rw [List.mem_insertionSort]
    exact List.mem_filter.2 ⟨h2, by simp [hw2]⟩
  rw [← demotedRows_append_drop st wId n] at hr2sorted
  rcases List.mem_append.1 hr2sorted with hin | hin
  · exact absurd (List.mem_map_of_mem (fun z => z.registrationId) hin) hd2
  · exact demotedRows_latest st wId n r1 hr1dem r2 hin

theorem removalFailedCheck_false {st : DbState} {wId : Nat} {n : Nat}
    (h1 : 1 ≤ n) (h2 : n ≤ getRegisteredCount st wId) :
    removalFailedCheck (removeParticipantsFromWorkshop st wId n).1 = false := by
  have hlen := length_removeParticipantsFromWorkshop_fst st wId n h2
  rw [removalFailedCheck]
  cases he : (removeParticipantsFromWorkshop st wId n).1.isEmpty
  · rfl
  · exfalso
    have hnil := List.isEmpty_iff.1 he
    rw [hnil] at hlen
    simp at hlen
    omega

theorem updateWorkshop_capacity_shrink_eq {st : DbState} {wId : Nat} {w : Workshop}
    {nc : Int} (hw : workshopById st wId = some w) (h0 : 0 ≤ nc)
    (hlt : nc < (getRegisteredCount st wId : Int)) :
    updateWorkshop st wId { title := none, description := none, capacity := some (.jint nc) } =
      (.updated ["capacity"],
        setWorkshopFields (removeParticipantsFromWorkshop st wId
          (((getRegisteredCount st wId : Int) - nc).toNat)).2 wId
          (fun w => { w with maxCapacity := nc }),
        [(removeParticipantsFromWorkshop st wId
            (((getRegisteredCount st wId : Int) - nc).toNat)).2,
          setWorkshopFields (removeParticipantsFromWorkshop st wId
            (((getRegisteredCount st wId : Int) - nc).toNat)).2 wId
            (fun w => { w with maxCapacity := nc })]) := by
  have h1 : 1 ≤ ((getRegisteredCount st wId : Int) - nc).toNat := by omega
  have h2 : ((getRegisteredCount st wId : Int) - nc).toNat ≤ getRegisteredCount st wId := by
    omega
  have hfail := removalFailedCheck_false h1 h2
  unfold updateWorkshop
  rw [hw]
  simp only [Option.isNone_none, Option.isNone_some, Bool.and_true, Bool.and_false,
    Bool.true_and, Bool.false_and, titleStep, descriptionStep]
  rw [if_neg Bool.false_ne_true]
  rw [if_neg (not_lt.2 h0)]
  simp only [updateCapacityBranch]
  rw [if_pos hlt, if_neg (by rw [hfail]; exact Bool.false_ne_true)]
  rfl

theorem updateWorkshop_capacity_grow_eq {st : DbState} {wId : Nat} {w : Workshop}
    {nc : Int} (hw : workshopById st wId = some w) (h0 : 0 ≤ nc)
    (hge : ¬ nc < (getRegisteredCount st wId : Int)) :
    updateWorkshop st wId { title := none, description := none, capacity := some (.jint nc) } =
      (.updated ["capacity"],
        setWorkshopFields st wId (fun w => { w with maxCapacity := nc }),
        [setWorkshopFields st wId (fun w => { w with maxCapacity := nc })]) := by
  unfold updateWorkshop
  rw [hw]
  simp only [Option.isNone_none, Option.isNone_some, Bool.and_true, Bool.and_false,
    Bool.true_and, Bool.false_and, titleStep, descriptionStep]
  rw [if_neg Bool.false_ne_true]
  rw [if_neg (not_lt.2 h0)]
  simp only [updateCapacityBranch]
  rw [if_neg hge]
  rfl

theorem find?_map_of_pred (p : α → Bool) (g : α → α) (h : ∀ x, p (g x) = p x)
    (l : List α) : (l.map g).find? p = (l.find? p).map g := by
  induction l with
  | nil => rfl
  | cons x xs ih =>
    simp only [List.map_cons]
    cases hx : p x
    · rw [List.find?_cons_of_neg _ (by rw [h x, hx]; exact Bool.false_ne_true),
        List.find?_cons_of_neg _ (by rw [hx]; exact Bool.false_ne_true), ih]
    · rw [List.find?_cons_of_pos _ (by rw [h x]; exact hx), List.find?_cons_of_pos _ hx]
      rfl

theorem workshopById_setCapacity {st : DbState} {wId : Nat} {w : Workshop} {nc : Int}
    (hw : workshopById st wId = some w) :
    workshopById (setWorkshopFields st wId fun x => { x with maxCapacity := nc }) wId =
      some { w with maxCapacity := nc } := by
  have hwid := workshopById_workshopId hw
  unfold workshopById at hw
  unfold workshopById setWorkshopFields
  rw [find?_map_of_pred (fun x : Workshop => x.workshopId == wId)
    (fun x => if x.workshopId == wId then { x with maxCapacity := nc } else x)
    (fun x => by dsimp only; split <;> rfl) st.workshops, hw]
  dsimp only [Option.map]
  rw [if_pos (by simp [hwid])]

theorem workshops_removeParticipantsFromWorkshop (st : DbState) (wId : Nat) (n : Nat) :
    (removeParticipantsFromWorkshop st wId n).2.workshops = st.workshops := rfl

/-- C4 (counterexample): workshop 1 has capacity 2 and two rows — user 1
REGISTERED at instant 20 and user 2 WAITLISTED at instant 10. The claim's
demotion condition, newCapacity below the current REGISTERED count, does
not hold for an edit to capacity 1 (one REGISTERED row, new capacity 1),
so the claim says all REGISTERED registrations remain REGISTERED; but
the code compares the new capacity with the all-rows count 2, demotes
the single latest row of any status — the REGISTERED one — and the edit
leaves the workshop with no REGISTERED registration at all while the
WAITLISTED row survives. -/
theorem c4_capacity_shrink_demotion_counterexample :
    registeredRowsCount exStateRegAndWaitlisted 1 = 1 ∧
    (updateWorkshop exStateRegAndWaitlisted 1
        { title := none, description := none, capacity := some (.jint 1) }).1 =
      .updated ["capacity"] ∧
    (updateWorkshop exStateRegAndWaitlisted 1
        { title := none, description := none, capacity := some (.jint 1) }).2.1.registrations =
      [{ registrationId := 1, workshopId := 1, userId := 1, registeredAt := 20, status := 3 },
       { registrationId := 2, workshopId := 1, userId := 2, registeredAt := 10, status := 2 }] ∧
    registeredRowsCount (updateWorkshop exStateRegAndWaitlisted 1
        { title := none, description := none, capacity := some (.jint 1) }).2.1 1 = 0 := by
  refine ⟨rfl, by decide, by decide, rfl⟩

/-- C4 (amended): editing a workshop's capacity to a value nc below the
all-rows count the code reads as the registered count succeeds and
demotes to CANCELLED exactly diff = count - nc rows, chosen as the rows
of the workshop — of any status, since the status filter of the demotion
query is vacuous — with the latest registered_at timestamps (every
demoted row's timestamp is at least every spared same-workshop row's);
rows of other workshops and unselected rows are untouched, the helper
returns the demoted rows' user ids, and — because demotion only rewrites
statuses and removes no row — the all-rows count the code will read next
time is unchanged. Rows are identified by the registrationId primary
key, assumed unique. -/
theorem c4_capacity_shrink_demotion :
    ∀ (st : DbState) (wId : Nat) (w : Workshop) (nc : Int),
      workshopById st wId = some w →
      (st.registrations.map fun r => r.registrationId).Nodup →
      0 ≤ nc → nc < (getRegisteredCount st wId : Int) →
      ((updateWorkshop st wId
          { title := none, description := none, capacity := some (.jint nc) }).1 =
        .updated ["capacity"]) ∧
      ((removeParticipantsFromWorkshop st wId
          (((getRegisteredCount st wId : Int) - nc).toNat)).1 =
        (demotedRows st wId (((getRegisteredCount st wId : Int) - nc).toNat)).map
          fun r => r.userId) ∧
      ((removeParticipantsFromWorkshop st wId
          (((getRegisteredCount st wId : Int) - nc).toNat)).1.length =
        ((getRegisteredCount st wId : Int) - nc).toNat) ∧
      (∀ r ∈ demotedRows st wId (((getRegisteredCount st wId : Int) - nc).toNat),
        r.workshopId = wId) ∧
      (getRegisteredCount (updateWorkshop st wId
          { title := none, description := none, capacity := some (.jint nc) }).2.1 wId =
        getRegisteredCount st wId) ∧
      (∀ r ∈ (updateWorkshop st wId
          { title := none, description := none,
            capacity := some (.jint nc) }).2.1.registrations,
        r.registrationId ∈ (demotedRows st wId
          (((getRegisteredCount st wId : Int) - nc).toNat)).map (fun x => x.registrationId) →
        r.status = 3) ∧
      (∀ r ∈ st.registrations,
        r.registrationId ∉ (demotedRows st wId
          (((getRegisteredCount st wId : Int) - nc).toNat)).map (fun x => x.registrationId) →
        r ∈ (updateWorkshop st wId
          { title := none, description := none,
            capacity := some (.jint nc) }).2.1.registrations) ∧
      (∀ r1 r2 : Registration, r1 ∈ st.registrations → r2 ∈ st.registrations →
        r2.workshopId = wId →
        r1.registrationId ∈ (demotedRows st wId
          (((getRegisteredCount st wId : Int) - nc).toNat)).map (fun x => x.registrationId) →
        r2.registrationId ∉ (demotedRows st wId
          (((getRegisteredCount st wId : Int) - nc).toNat)).map (fun x => x.registrationId) →
        r2.registeredAt ≤ r1.registeredAt) := by
  intro st wId w nc hw hids h0 hlt
  have h2 : ((getRegisteredCount st wId : Int) - nc).toNat ≤ getRegisteredCount st wId := by
    omega
  have heq := updateWorkshop_capacity_shrink_eq hw h0 hlt
  have hregs : (updateWorkshop st wId
      { title := none, description := none, capacity := some (.jint nc) }).2.1.registrations =
      (removeParticipantsFromWorkshop st wId
        (((getRegisteredCount st wId : Int) - nc).toNat)).2.registrations := by
    rw [heq]
    rfl
  refine ⟨by rw [heq], removeParticipantsFromWorkshop_fst ..,
    length_removeParticipantsFromWorkshop_fst _ _ _ h2,
    fun r hr => (mem_demotedRows hr).2, ?_, ?_, ?_, ?_⟩
  · have hcount : getRegisteredCount (updateWorkshop st wId
        { title := none, description := none, capacity := some (.jint nc) }).2.1 wId =
        getRegisteredCount (removeParticipantsFromWorkshop st wId
          (((getRegisteredCount st wId : Int) - nc).toNat)).2 wId :=
      congrArg (List.countP fun (r : Registration) => r.workshopId == wId) hregs
    rw [hcount, getRegisteredCount_removeParticipantsFromWorkshop]
  · intro r hr hid
    rw [hregs] at hr
    exact removeParticipants_demoted_status hr hid
  · intro r hr hid
    rw [hregs]
    exact removeParticipants_mem_of_not_demoted hr hid
  · intro r1 r2 h1m h2m hw2 hd1 hd2
    exact removeParticipants_lifo hids r1 r2 h1m h2m hw2 hd1 hd2

/-- Witness for C4 (amended) at the concrete three-registration workshop:
shrinking the capacity to 1 succeeds, returns two demoted user ids
(users 12 and 13, the two most recent registrants), and leaves the
all-rows count at 3 — demotion rewrites statuses without removing rows. -/
theorem c4_capacity_shrink_demotion_witness :
    (updateWorkshop exStateThreeRegistered 1
        { title := none, description := none, capacity := some (.jint 1) }).1 =
      .updated ["capacity"] ∧
    (removeParticipantsFromWorkshop exStateThreeRegistered 1 2).1.length = 2 ∧
    getRegisteredCount (updateWorkshop exStateThreeRegistered 1
        { title := none, description := none, capacity := some (.jint 1) }).2.1 1 =
      getRegisteredCount exStateThreeRegistered 1 :=
  have h := c4_capacity_shrink_demotion exStateThreeRegistered 1 exWorkshopCap3 1
    (by decide) (by decide) (by decide) (by decide)
  ⟨h.1, h.2.2.1, h.2.2.2.2.1⟩

/-- C7 (counterexample): on the concrete three-registration workshop,
shrinking the capacity to 1 produces two separate commits, and the first
committed state already contains both demotions (only one of the three
rows is still REGISTERED) while the workshop row still holds the old
capacity 3 — an observable state that the claim says never exists. -/
theorem c7_atomicity_counterexample :
    ((updateWorkshop exStateThreeRegistered 1
        { title := none, description := none, capacity := some (.jint 1) }).2.2.length = 2) ∧
    ((updateWorkshop exStateThreeRegistered 1
        { title := none, description := none,
          capacity := some (.jint 1) }).2.2.head?.map
      (fun c => (workshopById c 1).map fun w => w.maxCapacity) = some (some 3)) ∧
    ((updateWorkshop exStateThreeRegistered 1
        { title := none, description := none,
          capacity := some (.jint 1) }).2.2.head?.map
      (fun c => registeredRowsCount c 1) = some 1) := by
  refine ⟨by decide, by decide, by decide⟩

/-- C7 (amended): a capacity shrink issues exactly two commits: the
demotion helper first commits a state in which the diff demotions are all
applied at once — every selected row is already CANCELLED there and every
unselected row is untouched, so a partial subset of the demotions is
never committed — while the workshop row still carries the old capacity;
the route's final commit then writes the new capacity. The intermediate
committed state is observable between the two commits. -/
theorem c7_capacity_change_two_commits :
    ∀ (st : DbState) (wId : Nat) (w : Workshop) (nc : Int),
      workshopById st wId = some w →
      0 ≤ nc → nc < (getRegisteredCount st wId : Int) →
      ∃ mid : DbState,
        (updateWorkshop st wId
            { title := none, description := none, capacity := some (.jint nc) }).2.2 =
          [mid, (updateWorkshop st wId
            { title := none, description := none, capacity := some (.jint nc) }).2.1] ∧
        workshopById mid wId = some w ∧
        ((removeParticipantsFromWorkshop st wId
            (((getRegisteredCount st wId : Int) - nc).toNat)).1.length =
          ((getRegisteredCount st wId : Int) - nc).toNat) ∧
        (∀ r ∈ mid.registrations,
          r.registrationId ∈ (demotedRows st wId
            (((getRegisteredCount st wId : Int) - nc).toNat)).map
              (fun x => x.registrationId) →
          r.status = 3) ∧
        (∀ r ∈ st.registrations,
          r.registrationId ∉ (demotedRows st wId
            (((getRegisteredCount st wId : Int) - nc).toNat)).map
              (fun x => x.registrationId) →
          r ∈ mid.registrations) ∧
        workshopById (updateWorkshop st wId
            { title := none, description := none,
              capacity := some (.jint nc) }).2.1 wId =
          some { w with maxCapacity := nc } := by
  intro st wId w nc hw h0 hlt
  have h2 : ((getRegisteredCount st wId : Int) - nc).toNat ≤ getRegisteredCount st wId := by
    omega
  have heq := updateWorkshop_capacity_shrink_eq hw h0 hlt
  have hmidw : workshopById (removeParticipantsFromWorkshop st wId
      (((getRegisteredCount st wId : Int) - nc).toNat)).2 wId = some w := by
    unfold workshopById
    rw [workshops_removeParticipantsFromWorkshop]
    exact hw
  refine ⟨(removeParticipantsFromWorkshop st wId
      (((getRegisteredCount st wId : Int) - nc).toNat)).2, by rw [heq], hmidw,
    length_removeParticipantsFromWorkshop_fst _ _ _ h2,
    fun r hr hid => removeParticipants_demoted_status hr hid,
    fun r hr hid => removeParticipants_mem_of_not_demoted hr hid, ?_⟩
  rw [heq]
  exact workshopById_setCapacity hmidw

/-- Witness for C7 (amended) at the concrete three-registration workshop
shrunk to capacity 1. -/
theorem c7_capacity_change_two_commits_witness :
    ∃ mid : DbState,
      (updateWorkshop exStateThreeRegistered 1
          { title := none, description := none, capacity := some (.jint 1) }).2.2 =
        [mid, (updateWorkshop exStateThreeRegistered 1
          { title := none, description := none, capacity := some (.jint 1) }).2.1] ∧
      workshopById mid 1 = some exWorkshopCap3 ∧
      ((removeParticipantsFromWorkshop exStateThreeRegistered 1 2).1.length = 2) ∧
      (∀ r ∈ mid.registrations,
        r.registrationId ∈ (demotedRows exStateThreeRegistered 1 2).map
          (fun x => x.registrationId) →
        r.status = 3) ∧
      (∀ r ∈ exStateThreeRegistered.registrations,
        r.registrationId ∉ (demotedRows exStateThreeRegistered 1 2).map
          (fun x => x.registrationId) →
        r ∈ mid.registrations) ∧
      workshopById (updateWorkshop exStateThreeRegistered 1
          { title := none, description := none,
            capacity := some (.jint 1) }).2.1 1 =
        some { exWorkshopCap3 with maxCapacity := 1 } :=
  c7_capacity_change_two_commits exStateThreeRegistered 1 exWorkshopCap3 1
    (by decide) (by decide) (by decide)

/-- C10: create_workshop fails with a validation error and leaves the
store unchanged whenever the supplied capacity is not an integer or is
not strictly positive — in particular capacity 0 is rejected at creation
— while a later capacity edit through update_workshop accepts any
non-negative integer, including 0, and reports success. -/
theorem c10_create_rejects_zero_capacity :
    (∀ (st : DbState) (data : CreateData) (parseIso : String → Option Int),
      (∀ n, data.capacity = some (.jint n) → n ≤ 0) →
      createWorkshop st data parseIso = (.badRequest, st)) ∧
    (∀ (st : DbState) (wId : Nat) (w : Workshop) (nc : Int),
      workshopById st wId = some w → 0 ≤ nc →
      (updateWorkshop st wId
          { title := none, description := none, capacity := some (.jint nc) }).1 =
        .updated ["capacity"]) := by
  constructor
  · intro st data parseIso h
    unfold createWorkshop
    repeat' split
    all_goals first
      | rfl
      | (dsimp only; exact ite_self _)
      | exact absurd (h _ (by assumption)) (by assumption)
  · intro st wId w nc hw h0
    by_cases hlt : nc < (getRegisteredCount st wId : Int)
    · rw [updateWorkshop_capacity_shrink_eq hw h0 hlt]
    · rw [updateWorkshop_capacity_grow_eq hw h0 hlt]

/-- Witness for C10: a creation request with capacity 0 (all other fields
valid) is rejected with the store unchanged, while editing the
three-registration workshop's capacity to 0 succeeds. -/
theorem c10_create_rejects_zero_capacity_witness :
    createWorkshop exStateCap1
      { title := some (.jstr "t"), description := none,
        session_datetime := some (.jstr "2025-09-10T10:00:00"),
        duration_min := some (.jint 60), capacity := some (.jint 0) }
      (fun _ => some 0) = (.badRequest, exStateCap1) ∧
    (updateWorkshop exStateThreeRegistered 1
        { title := none, description := none, capacity := some (.jint 0) }).1 =
      .updated ["capacity"] :=
  ⟨c10_create_rejects_zero_capacity.1 exStateCap1
      { title := some (.jstr "t"), description := none,
        session_datetime := some (.jstr "2025-09-10T10:00:00"),
        duration_min := some (.jint 60), capacity := some (.jint 0) }
      (fun _ => some 0) (fun n hn => by cases hn; decide),
   c10_create_rejects_zero_capacity.2 exStateThreeRegistered 1 exWorkshopCap3 0
     (by decide) (by decide)⟩

end HckriotWorkshops
